import Mathlib

/-!
Verification development for the JOSE engine (JWS/JWE/JWT/JWK).

The development shallowly embeds the engine's data model and pipelines:
headers, the algorithm registry, key handles, the compact JWS verification
state machine, the JWE decrypt state machine, the JWT claims validator, JWK
conversion, thumbprints, and PEM export.  `jwtVerify` and the `export*` key
functions are translated directly from the TypeScript sources
(`jwt/verify.ts`, `key/export.ts`); components that the repository consumes
but whose sources are not part of this excerpt (compact verification, the
claims set validator, the ASN.1/JWK layers, the external crypto primitives)
are modelled from the specification, with each such definition marked
`Modelled from the spec:` in its doc comment.
-/

deriving instance DecidableEq for Except

/-- Error taxonomy of the engine (spec §7): format, header, key-mismatch,
key-resolution, crypto-operation and claim-validation failures.
`cryptoFailed` deliberately carries no detail (oracle avoidance). -/
inductive JoseError where
  | encodingError
  | jwsInvalid
  | jweInvalid
  | joseNotSupported
  | keyMismatch
  | keyResolutionFailed
  | cryptoFailed
  | jwkInvalid
  | jwtInvalid
  | jwtExpired (claim : String)
  | jwtClaimValidationFailed (claim : String)
deriving DecidableEq, Repr

/-- Whether an error is a claim-validation error (spec §7: ClaimValidationError). -/
def isClaimError : JoseError → Bool
  | .jwtExpired _ => true
  | .jwtClaimValidationFailed _ => true
  | _ => false

/-- JOSE protected header: `alg`, optional `enc`, optional `crit` list,
optional `b64` (RFC 7797), and further extension members. -/
structure JoseHeader where
  alg : String
  enc : Option String := none
  crit : Option (List String) := none
  b64 : Option Bool := none
  extra : List (String × String) := []
deriving DecidableEq, Repr, Inhabited

/-- Whether a parameter name is present in the effective header. -/
def headerHasParam (h : JoseHeader) (n : String) : Bool :=
  n == "alg" || (n == "enc" && h.enc.isSome) || (n == "crit" && h.crit.isSome)
    || (n == "b64" && h.b64.isSome) || h.extra.any (fun p => p.1 == n)

/-- Modelled from the spec: `validateCrit` (§4.5; source module for crit
validation is not in the excerpt).  Every name listed in `crit` must be
present in the effective header and be in the caller-supplied set of
understood extension names, otherwise validation fails closed with
`JOSENotSupported`. -/
def validateCrit (understood : List String) (h : JoseHeader) : Except JoseError Unit :=
  match h.crit with
  | none => .ok ()
  | some names =>
      if names.all (fun n => headerHasParam h n && understood.contains n) then .ok ()
      else .error .joseNotSupported

/-- Key types of the data model (spec §3). -/
inductive KeyType where
  | rsa
  | ec
  | okp
  | oct
deriving DecidableEq, Repr, Inhabited

/-- Algorithm families relevant to the embedded pipelines (spec §4.4/§4.7). -/
inductive AlgFamily where
  | signature
  | direct
  | keyWrap
deriving DecidableEq, Repr

/-- Algorithm Descriptor (spec §3): name, family, required key type, required
curve for EC/OKP, and required byte length for symmetric keys. -/
structure AlgDescriptor where
  name : String
  family : AlgFamily
  keyType : KeyType
  curve : Option String := none
  minKeyLen : Option Nat := none
  exactKeyLen : Option Nat := none
deriving DecidableEq, Repr

/-- Modelled from the spec: the static Algorithm Registry (§4.4; registry
source is not in the excerpt).  Read-only table indexed by algorithm name. -/
def algRegistry : List AlgDescriptor :=
  [ ⟨"HS256", .signature, .oct, none, some 32, none⟩,
    ⟨"HS384", .signature, .oct, none, some 48, none⟩,
    ⟨"HS512", .signature, .oct, none, some 64, none⟩,
    ⟨"RS256", .signature, .rsa, none, none, none⟩,
    ⟨"ES256", .signature, .ec, some "P-256", none, none⟩,
    ⟨"ES384", .signature, .ec, some "P-384", none, none⟩,
    ⟨"EdDSA", .signature, .okp, some "Ed25519", none, none⟩,
    ⟨"dir", .direct, .oct, none, none, none⟩,
    ⟨"A128KW", .keyWrap, .oct, none, none, some 16⟩,
    ⟨"A192KW", .keyWrap, .oct, none, none, some 24⟩,
    ⟨"A256KW", .keyWrap, .oct, none, none, some 32⟩,
    ⟨"A128GCMKW", .keyWrap, .oct, none, none, some 16⟩,
    ⟨"A192GCMKW", .keyWrap, .oct, none, none, some 24⟩,
    ⟨"A256GCMKW", .keyWrap, .oct, none, none, some 32⟩ ]

/-- Modelled from the spec: `resolve(alg)` (§4.4) fails with
`JOSENotSupported` for unknown identifiers (`none` is not registered, so
verification rejects it by default, §4.5). -/
def resolveAlg (alg : String) : Except JoseError AlgDescriptor :=
  match algRegistry.find? (fun d => d.name == alg) with
  | some d => .ok d
  | none => .error .joseNotSupported

/-- Content-encryption descriptor: CEK length, IV length and tag length are
fixed per `enc` (spec §3). -/
structure EncDescriptor where
  name : String
  cekLen : Nat
  ivLen : Nat
  tagLen : Nat
deriving DecidableEq, Repr

/-- Modelled from the spec: registry of content-encryption algorithms. -/
def encRegistry : List EncDescriptor :=
  [ ⟨"A128GCM", 16, 12, 16⟩,
    ⟨"A192GCM", 24, 12, 16⟩,
    ⟨"A256GCM", 32, 12, 16⟩ ]

/-- Modelled from the spec: lookup of the `enc` header parameter. -/
def resolveEnc : Option String → Except JoseError EncDescriptor
  | none => .error .jweInvalid
  | some e =>
      match encRegistry.find? (fun d => d.name == e) with
      | some d => .ok d
      | none => .error .joseNotSupported

/-- Key handle (spec §3, §9): explicit type/curve/material tags in place of
the runtime introspection the source performs on opaque platform keys. -/
structure JoseKey where
  kty : KeyType
  priv : Bool := false
  crv : Option String := none
  material : List Nat := []
deriving DecidableEq, Repr, Inhabited

/-- Whether a key's type, curve and byte length match what the algorithm
requires (spec §4.4). -/
def keyCompatible (d : AlgDescriptor) (k : JoseKey) : Bool :=
  k.kty == d.keyType
    && (match d.curve with | none => true | some c => k.crv == some c)
    && (match d.minKeyLen with | none => true | some n => decide (n ≤ k.material.length))
    && (match d.exactKeyLen with | none => true | some n => k.material.length == n)

/-- Modelled from the spec: `checkKeyCompatibility` (§4.4) runs before every
primitive invocation and fails with `KeyMismatch` otherwise. -/
def checkKeyCompatibility (d : AlgDescriptor) (k : JoseKey) : Except JoseError Unit :=
  if keyCompatible d k then .ok () else .error .keyMismatch

/-- Bytes of a string (model-level serialization helper). -/
def strBytes (s : String) : List Nat :=
  s.toList.map Char.toNat

/-- XOR-fold of a byte list; the model's one-byte digest primitive. -/
def xsum (l : List Nat) : Nat :=
  l.foldr Nat.xor 0

/-- Modelled from the spec: serialized protected-header bytes as used for the
signing input and the JWE additional authenticated data. -/
def headerBytes (h : JoseHeader) : List Nat :=
  strBytes h.alg ++ 46 :: (match h.enc with | none => [] | some e => strBytes e)

/-- JWS signing input: `serializedHeader || '.' || payload` (spec §4.6). -/
def signingInput (h : JoseHeader) (payload : List Nat) : List Nat :=
  headerBytes h ++ 46 :: payload

/-- Modelled from the spec: the external signing/MAC primitive (out of scope
for the repository, provided by the platform).  Deterministic digest of the
key material and the signing input; its only property the engine relies on
is that verification compares the stored signature against a recomputation. -/
def signPrimitive (d : AlgDescriptor) (k : JoseKey) (data : List Nat) : List Nat :=
  List.replicate 8 (xsum k.material ^^^ xsum data ^^^ xsum (strBytes d.name))

/-- A parsed compact JWS token: protected header, payload, signature. -/
structure JWSToken where
  header : JoseHeader
  payload : List Nat
  signature : List Nat
deriving DecidableEq, Repr, Inhabited

/-- Result of compact JWS verification. -/
structure VerifiedJWS where
  protectedHeader : JoseHeader
  payload : List Nat
deriving DecidableEq, Repr

/-- Modelled from the spec: the compact JWS verification state machine
(§4.6, `jws/compact/verify.ts` is not in the excerpt), parametric in the
verify primitive and key resolver so stage ordering facts can be stated:
resolve algorithm → validate crit → check family → resolve key → check key
compatibility → invoke primitive; each stage gates the next. -/
def compactVerifyCore (prim : AlgDescriptor → JoseKey → List Nat → List Nat)
    (resolve : JoseHeader → Except JoseError JoseKey)
    (understood : List String) (tok : JWSToken) : Except JoseError VerifiedJWS :=
  match resolveAlg tok.header.alg with
  | .error e => .error e
  | .ok desc =>
      match validateCrit understood tok.header with
      | .error e => .error e
      | .ok _ =>
          if desc.family == AlgFamily.signature then
            match resolve tok.header with
            | .error e => .error e
            | .ok key =>
                match checkKeyCompatibility desc key with
                | .error e => .error e
                | .ok _ =>
                    if tok.signature = prim desc key (signingInput tok.header tok.payload) then
                      .ok ⟨tok.header, tok.payload⟩
                    else .error .cryptoFailed
          else .error .jwsInvalid

/-- Modelled from the spec: `compactVerify` with a directly supplied key. -/
def compactVerify (tok : JWSToken) (key : JoseKey) (understood : List String) :
    Except JoseError VerifiedJWS :=
  compactVerifyCore signPrimitive (fun _ => .ok key) understood tok

/-- Modelled from the spec: signing side of the JWS engine (§4.6). -/
def signJWS (h : JoseHeader) (key : JoseKey) (understood : List String)
    (payload : List Nat) : Except JoseError JWSToken :=
  match resolveAlg h.alg with
  | .error e => .error e
  | .ok desc =>
      match validateCrit understood h with
      | .error e => .error e
      | .ok _ =>
          if desc.family == AlgFamily.signature then
            match checkKeyCompatibility desc key with
            | .error e => .error e
            | .ok _ => .ok ⟨h, payload, signPrimitive desc key (signingInput h payload)⟩
          else .error .jwsInvalid

/-- JWT claims set restricted to the time-window claims the excerpt's
validator stages use. -/
structure JWTClaims where
  exp : Option Nat := none
  nbf : Option Nat := none
deriving DecidableEq, Repr

/-- JWT claim-validation options: fixed current time and clock tolerance. -/
structure JWTOptions where
  currentDate : Nat
  clockTolerance : Nat := 0
deriving DecidableEq, Repr

/-- Modelled from the spec: the `nbf` check (§4.8) — the token must not be
used before `nbf`, up to the clock tolerance. -/
def checkNbf (now tol : Nat) : Option Nat → Except JoseError Unit
  | none => .ok ()
  | some n => if now + tol < n then .error (.jwtClaimValidationFailed "nbf") else .ok ()

/-- Modelled from the spec: the `exp` check (§4.8) — the token must not be
expired, up to the clock tolerance. -/
def checkExp (now tol : Nat) : Option Nat → Except JoseError Unit
  | none => .ok ()
  | some e => if e ≤ now - tol then .error (.jwtExpired "exp") else .ok ()

/-- Modelled from the spec: the JWT Claims Validator (§4.8,
`lib/jwt_claims_set.ts` is not in the excerpt); the first violated claim
aborts with the specific claim name. -/
def validateClaims (opts : JWTOptions) (c : JWTClaims) : Except JoseError JWTClaims :=
  match checkNbf opts.currentDate opts.clockTolerance c.nbf with
  | .error e => .error e
  | .ok _ =>
      match checkExp opts.currentDate opts.clockTolerance c.exp with
      | .error e => .error e
      | .ok _ => .ok c

/-- Model-level encoding of an optional numeric claim into payload bytes. -/
def encodeOptNat : Option Nat → List Nat
  | none => [0]
  | some n => [1, n % 256, n / 256 % 256, n / 65536 % 256, n / 16777216 % 256]

/-- Model-level decoding of an optional numeric claim from payload bytes. -/
def decodeOptNat : List Nat → Option (Option Nat × List Nat)
  | 0 :: rest => some (none, rest)
  | 1 :: a :: b :: c :: d :: rest => some (some (a + 256 * b + 65536 * c + 16777216 * d), rest)
  | _ => none

/-- Model-level claims-set payload codec (decode side). -/
def decodeClaims (p : List Nat) : Except JoseError JWTClaims :=
  match decodeOptNat p with
  | some (e, rest) =>
      match decodeOptNat rest with
      | some (n, []) => .ok ⟨e, n⟩
      | _ => .error .jwtInvalid
  | none => .error .jwtInvalid

/-- Modelled from the spec: `jwtPayload` (`lib/jwt_claims_set.ts`, not in the
excerpt) — recover the claims set from the verified payload, then validate
it. -/
def jwtClaimsSet (_h : JoseHeader) (payload : List Nat) (opts : JWTOptions) :
    Except JoseError JWTClaims :=
  match decodeClaims payload with
  | .error e => .error e
  | .ok c => validateClaims opts c

/-- Result of `jwtVerify`: payload claims and protected header. -/
structure JWTVerifyResult where
  payload : JWTClaims
  protectedHeader : JoseHeader
deriving DecidableEq, Repr

/-- Skeleton of `jwtVerify` from `jwt/verify.ts`, parametric in the result of
`compactVerify` and in the claims-set stage: first the compact verification
result is consumed, then the `b64` guard from the source
(`crit?.includes('b64') && b64 === false` throws `JWTInvalid`), then the
claims stage runs on the verified payload. -/
def jwtVerifyCore (cv : Except JoseError VerifiedJWS)
    (claimsFn : JoseHeader → List Nat → JWTOptions → Except JoseError JWTClaims)
    (opts : JWTOptions) : Except JoseError JWTVerifyResult :=
  match cv with
  | .error e => .error e
  | .ok verified =>
      if (verified.protectedHeader.crit.getD []).contains "b64"
          && verified.protectedHeader.b64 == some false then
        .error .jwtInvalid
      else
        match claimsFn verified.protectedHeader verified.payload opts with
        | .error e => .error e
        | .ok c => .ok ⟨c, verified.protectedHeader⟩

/-- `jwtVerify` from `jwt/verify.ts`: compact verification, the `b64` guard,
then claims-set recovery and validation. -/
def jwtVerify (tok : JWSToken) (key : JoseKey) (understood : List String)
    (opts : JWTOptions) : Except JoseError JWTVerifyResult :=
  jwtVerifyCore (compactVerify tok key understood) jwtClaimsSet opts

/-- Flip bit `k` of the byte at position `i` (identity past the end). -/
def flipBit : List Nat → Nat → Nat → List Nat
  | [], _, _ => []
  | b :: rest, 0, k => (b ^^^ 2 ^ k) :: rest
  | b :: rest, i + 1, k => b :: flipBit rest i k

/-- A parsed compact JWE token (spec §3): protected header, encrypted key,
IV, ciphertext, authentication tag. -/
structure JWEToken where
  header : JoseHeader
  encryptedKey : List Nat
  iv : List Nat
  ciphertext : List Nat
  tag : List Nat
deriving DecidableEq, Repr, Inhabited

/-- Modelled from the spec: the external AEAD keystream application (content
encryption); XOR with a key/IV-derived pad, so decryption is its inverse. -/
def encryptContent (cek iv pt : List Nat) : List Nat :=
  pt.map (fun b => b ^^^ (xsum cek ^^^ xsum iv))

/-- Modelled from the spec: content decryption, the inverse keystream
application. -/
def decryptContent (cek iv ct : List Nat) : List Nat :=
  ct.map (fun b => b ^^^ (xsum cek ^^^ xsum iv))

/-- Modelled from the spec: the external AEAD authentication tag over the
content-encryption key, IV, ciphertext and additional authenticated data.
Concrete digest standing in for the platform primitive; any single-byte
change of IV, ciphertext or AAD provably changes it. -/
def aeadTag (cek iv ct aad : List Nat) : List Nat :=
  List.replicate 16 (xsum cek ^^^ xsum iv ^^^ xsum ct ^^^ xsum aad)

/-- Modelled from the spec: AES key wrap of the content-encryption key,
an involutive masking by the wrapping key. -/
def wrapKey (kek cek : List Nat) : List Nat :=
  cek.map (fun b => b ^^^ xsum kek)

/-- Modelled from the spec: AES key unwrap, the inverse of `wrapKey`. -/
def unwrapKey (kek ek : List Nat) : List Nat :=
  ek.map (fun b => b ^^^ xsum kek)

/-- Modelled from the spec: content-encryption-key establishment for
decryption, per key-management family (§4.7): direct mode uses the provided
key itself (the encrypted-key field must be empty), key wrap unwraps the
encrypted key. -/
def establishCek (fam : AlgFamily) (key : JoseKey) (ek : List Nat) :
    Except JoseError (List Nat) :=
  match fam with
  | .direct => if ek = [] then .ok key.material else .error .jweInvalid
  | .keyWrap => .ok (unwrapKey key.material ek)
  | .signature => .error .jweInvalid

/-- Modelled from the spec: the JWE decrypt state machine (§4.7): resolve
`alg` and `enc`, validate crit, check key compatibility, establish the CEK,
check CEK/IV/tag lengths fixed per `enc`, verify the AEAD tag, and only then
release the plaintext; a failed tag check is fatal and surfaces the generic
`cryptoFailed`. -/
def decryptJWE (key : JoseKey) (understood : List String) (tok : JWEToken) :
    Except JoseError (List Nat) :=
  match resolveAlg tok.header.alg with
  | .error e => .error e
  | .ok desc =>
      match resolveEnc tok.header.enc with
      | .error e => .error e
      | .ok encDesc =>
          match validateCrit understood tok.header with
          | .error e => .error e
          | .ok _ =>
              match checkKeyCompatibility desc key with
              | .error e => .error e
              | .ok _ =>
                  match establishCek desc.family key tok.encryptedKey with
                  | .error e => .error e
                  | .ok cek =>
                      if cek.length = encDesc.cekLen ∧ tok.iv.length = encDesc.ivLen
                          ∧ tok.tag.length = encDesc.tagLen then
                        if tok.tag = aeadTag cek tok.iv tok.ciphertext (headerBytes tok.header) then
                          .ok (decryptContent cek tok.iv tok.ciphertext)
                        else .error .cryptoFailed
                      else .error .jweInvalid

/-- Modelled from the spec: the JWE encrypt state machine (§4.7) with
deterministic randomness supplied by the caller (`cek`, `iv`), mirroring
§5's deterministic-randomness testing contract. -/
def encryptJWE (h : JoseHeader) (key : JoseKey) (understood : List String)
    (cek iv payload : List Nat) : Except JoseError JWEToken :=
  match resolveAlg h.alg with
  | .error e => .error e
  | .ok desc =>
      match resolveEnc h.enc with
      | .error e => .error e
      | .ok encDesc =>
          match validateCrit understood h with
          | .error e => .error e
          | .ok _ =>
              match checkKeyCompatibility desc key with
              | .error e => .error e
              | .ok _ =>
                  match desc.family with
                  | .signature => .error .jweInvalid
                  | .direct =>
                      if key.material.length = encDesc.cekLen ∧ iv.length = encDesc.ivLen then
                        .ok ⟨h, [], iv, encryptContent key.material iv payload,
                          aeadTag key.material iv (encryptContent key.material iv payload)
                            (headerBytes h)⟩
                      else .error .jweInvalid
                  | .keyWrap =>
                      if cek.length = encDesc.cekLen ∧ iv.length = encDesc.ivLen then
                        .ok ⟨h, wrapKey key.material cek, iv, encryptContent cek iv payload,
                          aeadTag cek iv (encryptContent cek iv payload) (headerBytes h)⟩
                      else .error .jweInvalid

/-- JWK object (spec §3): standard parameters, byte-decoded. -/
structure JWKObj where
  kty : String
  crv : Option String := none
  x : Option (List Nat) := none
  y : Option (List Nat) := none
  d : Option (List Nat) := none
  n : Option (List Nat) := none
  e : Option (List Nat) := none
  k : Option (List Nat) := none
deriving DecidableEq, Repr

/-- Byte length of the supported EC curves' field elements. -/
def ecCurveLen : String → Option Nat
  | "P-256" => some 32
  | "P-384" => some 48
  | "P-521" => some 66
  | _ => none

/-- Byte length of the supported OKP curves' elements. -/
def okpCurveLen : String → Option Nat
  | "Ed25519" => some 32
  | "X25519" => some 32
  | _ => none

/-- Modelled from the spec: derivation of the public EC x-coordinate from the
private scalar (external primitive; length-preserving). -/
def ecPointX (m : List Nat) : List Nat :=
  m.map (fun b => b ^^^ 90)

/-- Modelled from the spec: derivation of the public EC y-coordinate
(external primitive; length-preserving). -/
def ecPointY (m : List Nat) : List Nat :=
  m.map (fun b => b ^^^ 165)

/-- Modelled from the spec: derivation of the public OKP point from the
private scalar (external primitive; length-preserving). -/
def okpPoint (m : List Nat) : List Nat :=
  m.map (fun b => b ^^^ 23)

/-- Modelled from the spec: derivation of the RSA modulus associated with a
private key's material (external primitive). -/
def rsaModulus (m : List Nat) : List Nat :=
  m.map (fun b => b ^^^ 7)

/-- Modelled from the spec: `toJWK(KeyHandle)` (§4.3, `lib/key_to_jwk.js` is
not in the excerpt): emit the key-type-specific parameters with
deterministic field placement. -/
def toJWK (key : JoseKey) : Except JoseError JWKObj :=
  match key.kty with
  | .oct => .ok { kty := "oct", k := some key.material }
  | .ec =>
      match key.crv with
      | none => .error .jwkInvalid
      | some c =>
          if key.priv then
            .ok { kty := "EC", crv := some c, x := some (ecPointX key.material),
                  y := some (ecPointY key.material), d := some key.material }
          else
            .ok { kty := "EC", crv := some c, x := some key.material,
                  y := some (ecPointY key.material) }
  | .okp =>
      match key.crv with
      | none => .error .jwkInvalid
      | some c =>
          if key.priv then
            .ok { kty := "OKP", crv := some c, x := some (okpPoint key.material),
                  d := some key.material }
          else
            .ok { kty := "OKP", crv := some c, x := some key.material }
  | .rsa =>
      if key.priv then
        .ok { kty := "RSA", n := some (rsaModulus key.material), e := some [1, 0, 1],
              d := some key.material }
      else
        .ok { kty := "RSA", n := some key.material, e := some [1, 0, 1] }

/-- Modelled from the spec: `fromJWK(JWK)` (§4.3): validate required-field
presence per `kty` (EC requires `crv`, `x`, `y`, and `d` only for private),
validate field lengths for the declared curve, and fail with `JWKInvalid`
otherwise. -/
def fromJWK (j : JWKObj) : Except JoseError JoseKey :=
  if j.kty = "oct" then
    match j.k with
    | some m => .ok ⟨.oct, false, none, m⟩
    | none => .error .jwkInvalid
  else if j.kty = "EC" then
    match j.crv with
    | none => .error .jwkInvalid
    | some c =>
        match ecCurveLen c with
        | none => .error .jwkInvalid
        | some len =>
            match j.x, j.y with
            | some xv, some yv =>
                if xv.length = len ∧ yv.length = len then
                  match j.d with
                  | some dv =>
                      if dv.length = len then .ok ⟨.ec, true, some c, dv⟩
                      else .error .jwkInvalid
                  | none => .ok ⟨.ec, false, some c, xv⟩
                else .error .jwkInvalid
            | _, _ => .error .jwkInvalid
  else if j.kty = "OKP" then
    match j.crv with
    | none => .error .jwkInvalid
    | some c =>
        match okpCurveLen c with
        | none => .error .jwkInvalid
        | some len =>
            match j.x with
            | some xv =>
                if xv.length = len then
                  match j.d with
                  | some dv =>
                      if dv.length = len then .ok ⟨.okp, true, some c, dv⟩
                      else .error .jwkInvalid
                  | none => .ok ⟨.okp, false, some c, xv⟩
                else .error .jwkInvalid
            | none => .error .jwkInvalid
  else if j.kty = "RSA" then
    match j.n, j.e with
    | some nv, some _ =>
        match j.d with
        | some dv => .ok ⟨.rsa, true, none, dv⟩
        | none => .ok ⟨.rsa, false, none, nv⟩
    | _, _ => .error .jwkInvalid
  else .error .jwkInvalid

/-- Well-formedness of a key handle: symmetric keys carry no curve and are
not marked private; EC/OKP keys carry a supported curve and material of the
curve's length. -/
def wellFormedKey (k : JoseKey) : Bool :=
  match k.kty with
  | .oct => !k.priv && k.crv == none
  | .rsa => k.crv == none
  | .ec =>
      match k.crv with
      | some c => (match ecCurveLen c with
          | some len => k.material.length == len
          | none => false)
      | none => false
  | .okp =>
      match k.crv with
      | some c => (match okpCurveLen c with
          | some len => k.material.length == len
          | none => false)
      | none => false

/-- `exportJWK` from `key/export.ts`: thin wrapper over the JWK conversion. -/
def exportJWK (key : JoseKey) : Except JoseError JWKObj :=
  toJWK key

/-- RFC 7638 minimal member set per `kty`, already in lexicographic order. -/
def requiredMembers : String → Option (List String)
  | "RSA" => some ["e", "kty", "n"]
  | "EC" => some ["crv", "kty", "x", "y"]
  | "OKP" => some ["crv", "kty", "x"]
  | "oct" => some ["k", "kty"]
  | _ => none

/-- One canonical-JSON member, `"name":"value"`, looked up in the input. -/
def canonicalMember (j : List (String × String)) (m : String) : Option String :=
  (j.lookup m).map (fun v => "\"" ++ m ++ "\":\"" ++ v ++ "\"")

/-- Canonical JSON text of a JWK given as an ordered member list: the
RFC-mandated minimal member set for its `kty`, in lexicographic key order. -/
def canonicalJWK (j : List (String × String)) : Option String :=
  match j.lookup "kty" with
  | none => none
  | some kty =>
      match requiredMembers kty with
      | none => none
      | some mems =>
          match mems.mapM (canonicalMember j) with
          | none => none
          | some parts => some ("\x7b" ++ String.intercalate "," parts ++ "\x7d")

/-- The base64url alphabet (RFC 4648 §5). -/
def base64UrlChars : List Char :=
  "ABCDEFGHIJKLMNOPQRSTUVWXYZabcdefghijklmnopqrstuvwxyz0123456789-_".toList

/-- One base64url character. -/
def b64uChar (n : Nat) : Char :=
  base64UrlChars.getD (n % 64) 'A'

/-- Unpadded base64url encoding of a byte list. -/
def base64UrlEncode : List Nat → List Char
  | [] => []
  | [a] => [b64uChar (a / 4), b64uChar (a % 4 * 16)]
  | [a, b] => [b64uChar (a / 4), b64uChar (a % 4 * 16 + b / 16), b64uChar (b % 16 * 4)]
  | a :: b :: c :: rest =>
      b64uChar (a / 4) :: b64uChar (a % 4 * 16 + b / 16)
        :: b64uChar (b % 16 * 4 + c / 64) :: b64uChar (c % 64) :: base64UrlEncode rest

/-- Modelled from the spec: JWK thumbprint computation (§4.3): canonicalize
to the fixed per-`kty` member list in lexicographic order, hash the
canonical JSON bytes with the external digest primitive (modelled by the
concrete `xsum` digest), and return the base64url digest. -/
def thumbprint (j : List (String × String)) : Except JoseError String :=
  match canonicalJWK j with
  | none => .error .jwkInvalid
  | some s => .ok (String.mk (base64UrlEncode [xsum (strBytes s)]))

/-- The standard base64 alphabet (RFC 4648 §4), used by PEM bodies. -/
def base64Chars : List Char :=
  "ABCDEFGHIJKLMNOPQRSTUVWXYZabcdefghijklmnopqrstuvwxyz0123456789+/".toList

/-- One base64 character. -/
def b64Char (n : Nat) : Char :=
  base64Chars.getD (n % 64) 'A'

/-- Padded base64 encoding of a byte list. -/
def base64Encode : List Nat → List Char
  | [] => []
  | [a] => [b64Char (a / 4), b64Char (a % 4 * 16), '=', '=']
  | [a, b] => [b64Char (a / 4), b64Char (a % 4 * 16 + b / 16), b64Char (b % 16 * 4), '=']
  | a :: b :: c :: rest =>
      b64Char (a / 4) :: b64Char (a % 4 * 16 + b / 16)
        :: b64Char (b % 16 * 4 + c / 64) :: b64Char (c % 64) :: base64Encode rest

/-- Split a character list into lines of 64 characters (the last line may be
shorter). -/
def chunksOf64 (l : List Char) : List (List Char) :=
  if _h : l.length ≤ 64 then [l]
  else l.take 64 :: chunksOf64 (l.drop 64)
termination_by l.length
decreasing_by
  simp only [List.length_drop]
  omega

/-- Join lines with newline separators. -/
def joinLines : List (List Char) → List Char
  | [] => []
  | [l] => l
  | l :: l2 :: rest => l ++ '\n' :: joinLines (l2 :: rest)

/-- The PEM `BEGIN` boundary line for a label. -/
def pemBegin (label : String) : List Char :=
  ("-----BEGIN " ++ label ++ "-----").toList

/-- The PEM `END` boundary line for a label. -/
def pemEnd (label : String) : List Char :=
  ("-----END " ++ label ++ "-----").toList

/-- Modelled from the spec: the PEM textual wrapper (§4.2): `BEGIN` line,
base64 body wrapped at 64 columns, matching `END` line. -/
def pemRender (label : String) (body : List Char) : List Char :=
  joinLines (pemBegin label :: (chunksOf64 body ++ [pemEnd label]))

/-- Modelled from the spec: DER encoding of a public key's
SubjectPublicKeyInfo (§4.2; `lib/asn1.js` is not in the excerpt). -/
def spkiDER (key : JoseKey) : List Nat :=
  48 :: (match key.kty with | .rsa => 1 | .ec => 2 | .okp => 3 | .oct => 4) :: key.material

/-- Modelled from the spec: DER encoding of a private key's PrivateKeyInfo
(§4.2). -/
def pkcs8DER (key : JoseKey) : List Nat :=
  48 :: 2 :: 1 :: 0 :: (match key.kty with | .rsa => 1 | .ec => 2 | .okp => 3 | .oct => 4)
    :: key.material

/-- Modelled from the spec: `toSPKI` (`lib/asn1.js`): PEM text around the
SPKI DER bytes. -/
def toSPKI (key : JoseKey) : List Char :=
  pemRender "PUBLIC KEY" (base64Encode (spkiDER key))

/-- Modelled from the spec: `toPKCS8` (`lib/asn1.js`): PEM text around the
PKCS8 DER bytes. -/
def toPKCS8 (key : JoseKey) : List Char :=
  pemRender "PRIVATE KEY" (base64Encode (pkcs8DER key))

/-- `exportSPKI` from `key/export.ts`: thin wrapper over `toSPKI`. -/
def exportSPKI (key : JoseKey) : List Char :=
  toSPKI key

/-- `exportPKCS8` from `key/export.ts`: thin wrapper over `toPKCS8`. -/
def exportPKCS8 (key : JoseKey) : List Char :=
  toPKCS8 key

/-- Wrapped-at-64 line structure: every line has at most 64 characters and
every line but the last has exactly 64. -/
def wrapped64 (lines : List (List Char)) : Prop :=
  (∀ l ∈ lines, l.length ≤ 64) ∧ ∀ i, i + 1 < lines.length → (lines.getD i []).length = 64

/-- A character of a padded base64 body. -/
def isB64Char (c : Char) : Prop :=
  c ∈ base64Chars ∨ c = '='

/-! Concrete fixtures used by the witness theorems. -/

def tokNone : JWSToken := ⟨{ alg := "none" }, [1], []⟩

def keyW1 : JoseKey := { kty := .oct, material := List.replicate 32 3 }

def hB64 : JoseHeader := { alg := "HS256", crit := some ["b64"], b64 := some false }

def tokB64 : JWSToken :=
  ⟨hB64, [0, 0],
    signPrimitive ⟨"HS256", .signature, .oct, none, some 32, none⟩ keyW1
      (signingInput hB64 [0, 0])⟩

def keyRsaPub : JoseKey := { kty := .rsa, material := [1, 2, 3, 4] }

def tokHS : JWSToken :=
  ⟨{ alg := "HS256" }, [7],
    signPrimitive ⟨"HS256", .signature, .oct, none, some 32, none⟩ keyRsaPub
      (signingInput { alg := "HS256" } [7])⟩

def tokCrit : JWSToken := ⟨{ alg := "HS256", crit := some ["unknownExt"] }, [1], [2]⟩

def keyT : JoseKey := ⟨.oct, false, none, List.replicate 32 5⟩

def hT : JoseHeader := { alg := "HS256" }

def tokT : JWSToken :=
  ⟨hT, [10, 20],
    signPrimitive ⟨"HS256", .signature, .oct, none, some 32, none⟩ keyT
      (signingInput hT [10, 20])⟩

def keyTE : JoseKey := ⟨.oct, false, none, List.replicate 16 9⟩

def hTE : JoseHeader := { alg := "A128KW", enc := some "A128GCM" }

def tokTE : JWEToken :=
  (encryptJWE hTE keyTE [] (List.replicate 16 11) (List.replicate 12 3) [42]).toOption.getD
    default

def keyR1 : JoseKey := ⟨.oct, false, none, List.replicate 32 8⟩

def hR1 : JoseHeader := { alg := "HS256" }

def tokR1 : JWSToken := (signJWS hR1 keyR1 [] [3, 1, 4]).toOption.getD default

def keyR2 : JoseKey := ⟨.oct, false, none, List.replicate 16 12⟩

def hR2 : JoseHeader := { alg := "dir", enc := some "A128GCM" }

def tokR2 : JWEToken :=
  (encryptJWE hR2 keyR2 [] [] (List.replicate 12 1) [9, 9]).toOption.getD default

def keyJ : JoseKey := ⟨.ec, true, some "P-256", List.replicate 32 9⟩

theorem xsum_cons (a : Nat) (l : List Nat) : xsum (a :: l) = a ^^^ xsum l := rfl

theorem xor_pow_ne_self (b k : Nat) : b ^^^ 2 ^ k ≠ b := by
  intro h
  have h2 : b ^^^ (b ^^^ 2 ^ k) = b ^^^ b := by rw [h]
  rw [← Nat.xor_assoc, Nat.xor_self, Nat.zero_xor] at h2
  exact Nat.pos_iff_ne_zero.mp (Nat.pos_pow_of_pos k (by norm_num)) h2

theorem flipBit_length (l : List Nat) (i k : Nat) : (flipBit l i k).length = l.length := by
  induction l generalizing i with
  | nil => simp [flipBit]
  | cons b rest ih =>
      cases i with
      | zero => simp [flipBit]
      | succ j => simp [flipBit, ih]

theorem xsum_flipBit (l : List Nat) (i k : Nat) (h : i < l.length) :
    xsum (flipBit l i k) = xsum l ^^^ 2 ^ k := by
  induction l generalizing i with
  | nil => simp at h
  | cons b rest ih =>
      cases i with
      | zero =>
          simp only [flipBit, xsum_cons]
          rw [Nat.xor_assoc, Nat.xor_comm (2 ^ k), ← Nat.xor_assoc]
      | succ j =>
          simp only [flipBit, xsum_cons]
          rw [ih j (by simpa using h), ← Nat.xor_assoc]

theorem flipBit_ne (l : List Nat) (i k : Nat) (h : i < l.length) : flipBit l i k ≠ l := by
  intro he
  have hx := congrArg xsum he
  rw [xsum_flipBit l i k h] at hx
  exact xor_pow_ne_self (xsum l) k hx

theorem resolveAlg_error {a : String} {e : JoseError} (h : resolveAlg a = .error e) :
    e = .joseNotSupported := by
  unfold resolveAlg at h
  split at h
  · exact absurd h (by simp)
  · exact ((Except.error.injEq _ _).mp h).symm

theorem validateCrit_error {u : List String} {h : JoseHeader} {e : JoseError}
    (he : validateCrit u h = .error e) : e = .joseNotSupported := by
  unfold validateCrit at he
  split at he
  · exact absurd he (by simp)
  · split at he
    · exact absurd he (by simp)
    · exact ((Except.error.injEq _ _).mp he).symm

theorem checkKeyCompatibility_error {d : AlgDescriptor} {k : JoseKey} {e : JoseError}
    (he : checkKeyCompatibility d k = .error e) : e = .keyMismatch := by
  unfold checkKeyCompatibility at he
  split at he
  · exact absurd he (by simp)
  · exact ((Except.error.injEq _ _).mp he).symm

theorem compactVerifyCore_error_not_claim
    (prim : AlgDescriptor → JoseKey → List Nat → List Nat)
    (resolve : JoseHeader → Except JoseError JoseKey)
    (u : List String) (tok : JWSToken) (e : JoseError)
    (hres : ∀ h e', resolve h = .error e' → isClaimError e' = false)
    (he : compactVerifyCore prim resolve u tok = .error e) : isClaimError e = false := by
  unfold compactVerifyCore at he
  split at he
  next e0 heq =>
    injection he with h1
    subst h1
    rw [resolveAlg_error heq]
    rfl
  next desc heq =>
    split at he
    next e0 hcrit =>
      injection he with h1
      subst h1
      rw [validateCrit_error hcrit]
      rfl
    next hcrit =>
      split at he
      · split at he
        next e0 hkey =>
          injection he with h1
          subst h1
          exact hres tok.header e0 hkey
        next key hkey =>
          split at he
          next e0 hcomp =>
            injection he with h1
            subst h1
            rw [checkKeyCompatibility_error hcomp]
            rfl
          next hcomp =>
            split at he
            · exact absurd he (by simp)
            · injection he with h1
              subst h1
              rfl
      · injection he with h1
        subst h1
        rfl

/-- C1: claim validation runs strictly after cryptographic verification.  When
`compactVerify` fails, `jwtVerify` propagates exactly that failure for any
claims stage, and the surfaced error is never a ClaimValidationError. -/
theorem jwtVerify_claims_after_verification (tok : JWSToken) (key : JoseKey)
    (understood : List String) (opts : JWTOptions) (e : JoseError)
    (hcv : compactVerify tok key understood = .error e) :
    (∀ f, jwtVerifyCore (compactVerify tok key understood) f opts = .error e)
    ∧ jwtVerify tok key understood opts = .error e
    ∧ isClaimError e = false := by
  refine ⟨fun f => ?_, ?_, ?_⟩
  · rw [hcv]
    rfl
  · unfold jwtVerify
    rw [hcv]
    rfl
  · exact compactVerifyCore_error_not_claim signPrimitive (fun _ => .ok key) understood tok e
      (fun _ _ hr => absurd hr (by simp)) hcv

/-- Witness for C1 at a concrete token whose algorithm is unregistered. -/
theorem jwtVerify_claims_after_verification_witness :
    jwtVerify tokNone keyW1 [] ⟨1000, 0⟩ = .error .joseNotSupported
    ∧ isClaimError .joseNotSupported = false :=
  ⟨(jwtVerify_claims_after_verification tokNone keyW1 [] ⟨1000, 0⟩ .joseNotSupported
      (by decide)).2.1,
   (jwtVerify_claims_after_verification tokNone keyW1 [] ⟨1000, 0⟩ .joseNotSupported
      (by decide)).2.2⟩

/-- C10: a token whose protected header lists `b64` in `crit` and sets `b64` to
false is rejected by `jwtVerify` with `jwtInvalid` even when compact
verification succeeds, and `jwtVerify` never returns a claims set for it. -/
theorem jwtVerify_rejects_unencoded_payload (tok : JWSToken) (key : JoseKey)
    (understood : List String) (opts : JWTOptions)
    (hcrit : (tok.header.crit.getD []).contains "b64" = true)
    (hb64 : tok.header.b64 = some false) :
    (∀ v, compactVerify tok key understood = .ok v →
      jwtVerify tok key understood opts = .error .jwtInvalid)
    ∧ ∀ r, jwtVerify tok key understood opts ≠ .ok r := by
  have hcv : ∀ v, compactVerify tok key understood = .ok v → v.protectedHeader = tok.header := by
    intro v hv
    unfold compactVerify compactVerifyCore at hv
    split at hv
    · exact absurd hv (by simp)
    · split at hv
      · exact absurd hv (by simp)
      · split at hv
        · split at hv
          · exact absurd hv (by simp)
          · split at hv
            · exact absurd hv (by simp)
            · split at hv
              · injection hv with h1
                rw [← h1]
              · exact absurd hv (by simp)
        · exact absurd hv (by simp)
  constructor
  · intro v hv
    unfold jwtVerify jwtVerifyCore
    rw [hv]
    have hmem : "b64" ∈ tok.header.crit.getD [] := by simpa using hcrit
    simp [hcv v hv, hmem, hb64]
  · intro r hr
    unfold jwtVerify jwtVerifyCore at hr
    split at hr
    · exact absurd hr (by simp)
    · next v hv =>
        rw [hcv v hv, hcrit, hb64] at hr
        simp at hr

/-- Witness for C10 at a concrete validly signed unencoded-payload token. -/
theorem jwtVerify_rejects_unencoded_payload_witness :
    compactVerify tokB64 keyW1 ["b64"] = .ok ⟨hB64, [0, 0]⟩
    ∧ jwtVerify tokB64 keyW1 ["b64"] ⟨1000, 0⟩ = .error .jwtInvalid :=
  ⟨by decide,
   (jwtVerify_rejects_unencoded_payload tokB64 keyW1 ["b64"] ⟨1000, 0⟩ (by decide)
      (by decide)).1 ⟨hB64, [0, 0]⟩ (by decide)⟩

theorem keyCompatible_false_of_mismatch (d : AlgDescriptor) (k : JoseKey)
    (h : k.kty ≠ d.keyType ∨ (∃ c, d.curve = some c ∧ k.crv ≠ some c)
      ∨ (∃ n, d.minKeyLen = some n ∧ k.material.length < n)
      ∨ (∃ n, d.exactKeyLen = some n ∧ k.material.length ≠ n)) :
    keyCompatible d k = false := by
  unfold keyCompatible
  rcases h with h | ⟨c, hc, hne⟩ | ⟨n, hn, hlt⟩ | ⟨n, hn, hne⟩
  · simp [h]
  · simp [hc, hne]
  · simp [hn, Nat.not_le_of_lt hlt]
  · simp [hn, hne]

/-- C3: a key whose type, curve or byte length does not match what the
header-declared algorithm requires fails with `keyMismatch` before any
cryptographic primitive is invoked: the outcome is identical for every
possible primitive, so the key bytes are never reinterpreted. -/
theorem key_mismatch_blocks_primitive (tok : JWSToken) (key : JoseKey)
    (u : List String) (desc : AlgDescriptor)
    (hres : resolveAlg tok.header.alg = .ok desc)
    (hcrit : validateCrit u tok.header = .ok ())
    (hfam : desc.family = .signature)
    (hmis : key.kty ≠ desc.keyType ∨ (∃ c, desc.curve = some c ∧ key.crv ≠ some c)
      ∨ (∃ n, desc.minKeyLen = some n ∧ key.material.length < n)
      ∨ (∃ n, desc.exactKeyLen = some n ∧ key.material.length ≠ n)) :
    (∀ prim, compactVerifyCore prim (fun _ => .ok key) u tok = .error .keyMismatch)
    ∧ compactVerify tok key u = .error .keyMismatch := by
  have hcore : ∀ prim, compactVerifyCore prim (fun _ => .ok key) u tok = .error .keyMismatch := by
    intro prim
    unfold compactVerifyCore
    rw [hres, hcrit]
    simp [hfam, checkKeyCompatibility, keyCompatible_false_of_mismatch desc key hmis]
  exact ⟨hcore, hcore signPrimitive⟩

/-- Witness for C3: an RSA public key presented where the header declares
HS256. -/
theorem key_mismatch_blocks_primitive_witness :
    compactVerify tokHS keyRsaPub [] = .error .keyMismatch
    ∧ compactVerifyCore (fun _ _ _ => []) (fun _ => .ok keyRsaPub) [] tokHS
        = .error .keyMismatch :=
  ⟨(key_mismatch_blocks_primitive tokHS keyRsaPub []
      ⟨"HS256", .signature, .oct, none, some 32, none⟩ (by decide) (by decide) rfl
      (Or.inl (by decide))).2,
   (key_mismatch_blocks_primitive tokHS keyRsaPub []
      ⟨"HS256", .signature, .oct, none, some 32, none⟩ (by decide) (by decide) rfl
      (Or.inl (by decide))).1 (fun _ _ _ => [])⟩

/-- C4: if any name listed in `crit` is absent from the effective header or not
in the caller-supplied understood set, verification fails with
`joseNotSupported` for every key resolver and every primitive — header
validation fails before any key resolution occurs. -/
theorem crit_unrecognized_rejected (tok : JWSToken) (u : List String)
    (names : List String)
    (hcrit : tok.header.crit = some names)
    (hbad : ∃ n ∈ names, headerHasParam tok.header n = false ∨ u.contains n = false) :
    ∀ prim resolve, compactVerifyCore prim resolve u tok = .error .joseNotSupported := by
  intro prim resolve
  have hvc : validateCrit u tok.header = .error .joseNotSupported := by
    unfold validateCrit
    rw [hcrit]
    obtain ⟨n, hn, hb⟩ := hbad
    have hall : names.all (fun n => headerHasParam tok.header n && u.contains n) = false := by
      rw [List.all_eq_false]
      refine ⟨n, hn, ?_⟩
      rcases hb with hb | hb
      · simp [hb]
      · have hnotmem : n ∉ u := by simpa using hb
        simp [hnotmem]
    dsimp only
    rw [hall]
    simp
  unfold compactVerifyCore
  cases hres : resolveAlg tok.header.alg with
  | error e => rw [resolveAlg_error hres]
  | ok desc => rw [hvc]

/-- Witness for C4: a token with crit ["unknownExt"] and no declared support. -/
theorem crit_unrecognized_rejected_witness :
    compactVerifyCore signPrimitive (fun _ => .error .keyResolutionFailed) [] tokCrit
      = .error .joseNotSupported
    ∧ compactVerify tokCrit keyW1 [] = .error .joseNotSupported :=
  ⟨crit_unrecognized_rejected tokCrit [] ["unknownExt"] rfl
      ⟨"unknownExt", by decide, Or.inl (by decide)⟩ signPrimitive
      (fun _ => .error .keyResolutionFailed),
   crit_unrecognized_rejected tokCrit [] ["unknownExt"] rfl
      ⟨"unknownExt", by decide, Or.inl (by decide)⟩ signPrimitive
      (fun _ => .ok keyW1)⟩

/-- C7: claims boundaries at fixed current time T with zero clock tolerance:
exp = T - 1 fails claim validation as expired, exp = T + 1 passes the exp
check, nbf = T + 1 fails claim validation as not yet valid, and nbf = T - 1
passes the nbf check. -/
theorem claims_time_boundaries (T : Nat) (c : JWTClaims) :
    (c.exp = some (T - 1) → 1 ≤ T → checkNbf T 0 c.nbf = .ok () →
      validateClaims ⟨T, 0⟩ c = .error (.jwtExpired "exp"))
    ∧ (c.exp = some (T + 1) → checkExp T 0 c.exp = .ok ())
    ∧ (c.nbf = some (T + 1) → validateClaims ⟨T, 0⟩ c = .error (.jwtClaimValidationFailed "nbf"))
    ∧ (c.nbf = some (T - 1) → checkNbf T 0 c.nbf = .ok ()) := by
  refine ⟨?_, ?_, ?_, ?_⟩
  · intro hexp hT hnbf
    unfold validateClaims
    rw [hnbf]
    dsimp only
    unfold checkExp
    rw [hexp]
    simp [Nat.sub_le]
  · intro hexp
    unfold checkExp
    rw [hexp]
    simp
  · intro hnbf
    unfold validateClaims checkNbf
    rw [hnbf]
    simp
  · intro hnbf
    unfold checkNbf
    rw [hnbf]
    simp [Nat.sub_le]

/-- Witness for C7 at T = 1000. -/
theorem claims_time_boundaries_witness :
    validateClaims ⟨1000, 0⟩ ⟨some 999, none⟩ = .error (.jwtExpired "exp")
    ∧ checkExp 1000 0 (some 1001) = .ok ()
    ∧ validateClaims ⟨1000, 0⟩ ⟨none, some 1001⟩ = .error (.jwtClaimValidationFailed "nbf")
    ∧ checkNbf 1000 0 (some 999) = .ok () :=
  ⟨(claims_time_boundaries 1000 ⟨some 999, none⟩).1 rfl (by decide) (by decide),
   (claims_time_boundaries 1000 ⟨some 1001, none⟩).2.1 rfl,
   (claims_time_boundaries 1000 ⟨none, some 1001⟩).2.2.1 rfl,
   (claims_time_boundaries 1000 ⟨none, some 999⟩).2.2.2 rfl⟩

theorem compactVerify_ok_iff (tok : JWSToken) (key : JoseKey) (u : List String)
    (v : VerifiedJWS) :
    compactVerify tok key u = .ok v ↔
      ∃ desc, resolveAlg tok.header.alg = .ok desc
        ∧ validateCrit u tok.header = .ok ()
        ∧ desc.family = .signature
        ∧ keyCompatible desc key = true
        ∧ tok.signature = signPrimitive desc key (signingInput tok.header tok.payload)
        ∧ v = ⟨tok.header, tok.payload⟩ := by
  constructor
  · intro hok
    unfold compactVerify compactVerifyCore at hok
    split at hok
    · exact absurd hok (by simp)
    next desc heq =>
      split at hok
      · exact absurd hok (by simp)
      next u1 hcrit =>
        split at hok
        next hfam =>
          split at hok
          · exact absurd hok (by simp)
          next key2 hkey2 =>
            split at hok
            · exact absurd hok (by simp)
            next u2 hcomp =>
              split at hok
              next hsig =>
                injection hok with h1
                have hk2 : key2 = key := by
                  injection hkey2 with h2
                  exact h2.symm
                subst hk2
                refine ⟨desc, heq, ?_, beq_iff_eq.mp hfam, ?_, hsig, h1.symm⟩
                · cases u1
                  exact hcrit
                · unfold checkKeyCompatibility at hcomp
                  split at hcomp
                  · assumption
                  · exact absurd hcomp (by simp)
              next hsig => exact absurd hok (by simp)
        next hfam => exact absurd hok (by simp)
  · rintro ⟨desc, heq, hcrit, hfam, hcomp, hsig, hv⟩
    unfold compactVerify compactVerifyCore
    rw [heq, hcrit]
    dsimp only
    rw [if_pos (beq_iff_eq.mpr hfam)]
    rw [show checkKeyCompatibility desc key = Except.ok () from by
      unfold checkKeyCompatibility
      rw [hcomp]
      rfl]
    dsimp only
    rw [if_pos hsig, hv]

theorem compactVerify_cryptoFailed (tok : JWSToken) (key : JoseKey) (u : List String)
    (desc : AlgDescriptor)
    (heq : resolveAlg tok.header.alg = .ok desc)
    (hcrit : validateCrit u tok.header = .ok ())
    (hfam : desc.family = .signature)
    (hcomp : keyCompatible desc key = true)
    (hsig : tok.signature ≠ signPrimitive desc key (signingInput tok.header tok.payload)) :
    compactVerify tok key u = .error .cryptoFailed := by
  unfold compactVerify compactVerifyCore
  rw [heq, hcrit]
  dsimp only
  rw [if_pos (beq_iff_eq.mpr hfam)]
  rw [show checkKeyCompatibility desc key = Except.ok () from by
    unfold checkKeyCompatibility
    rw [hcomp]
    rfl]
  dsimp only
  rw [if_neg hsig]

theorem decryptJWE_ok_iff (key : JoseKey) (u : List String) (tok : JWEToken)
    (pt : List Nat) :
    decryptJWE key u tok = .ok pt ↔
      ∃ desc encDesc cek, resolveAlg tok.header.alg = .ok desc
        ∧ resolveEnc tok.header.enc = .ok encDesc
        ∧ validateCrit u tok.header = .ok ()
        ∧ keyCompatible desc key = true
        ∧ establishCek desc.family key tok.encryptedKey = .ok cek
        ∧ cek.length = encDesc.cekLen ∧ tok.iv.length = encDesc.ivLen
        ∧ tok.tag.length = encDesc.tagLen
        ∧ tok.tag = aeadTag cek tok.iv tok.ciphertext (headerBytes tok.header)
        ∧ pt = decryptContent cek tok.iv tok.ciphertext := by
  constructor
  · intro hok
    unfold decryptJWE at hok
    split at hok
    · exact absurd hok (by simp)
    next desc heq =>
      split at hok
      · exact absurd hok (by simp)
      next encDesc henc =>
        split at hok
        · exact absurd hok (by simp)
        next u1 hcrit =>
          split at hok
          · exact absurd hok (by simp)
          next u2 hcomp =>
            split at hok
            · exact absurd hok (by simp)
            next cek hcek =>
              split at hok
              next hlen =>
                split at hok
                next htag =>
                  injection hok with h1
                  refine ⟨desc, encDesc, cek, heq, henc, ?_, ?_, hcek,
                    hlen.1, hlen.2.1, hlen.2.2, htag, h1.symm⟩
                  · cases u1
                    exact hcrit
                  · unfold checkKeyCompatibility at hcomp
                    split at hcomp
                    · assumption
                    · exact absurd hcomp (by simp)
                next htag => exact absurd hok (by simp)
              next hlen => exact absurd hok (by simp)
  · rintro ⟨desc, encDesc, cek, heq, henc, hcrit, hcomp, hcek, hl1, hl2, hl3, htag, hpt⟩
    unfold decryptJWE
    rw [heq, henc, hcrit]
    dsimp only
    rw [show checkKeyCompatibility desc key = Except.ok () from by
      unfold checkKeyCompatibility
      rw [hcomp]
      rfl]
    dsimp only
    rw [hcek]
    dsimp only
    rw [if_pos ⟨hl1, hl2, hl3⟩, if_pos htag, hpt]

theorem decryptJWE_cryptoFailed (key : JoseKey) (u : List String) (tok : JWEToken)
    (desc : AlgDescriptor) (encDesc : EncDescriptor) (cek : List Nat)
    (heq : resolveAlg tok.header.alg = .ok desc)
    (henc : resolveEnc tok.header.enc = .ok encDesc)
    (hcrit : validateCrit u tok.header = .ok ())
    (hcomp : keyCompatible desc key = true)
    (hcek : establishCek desc.family key tok.encryptedKey = .ok cek)
    (hl1 : cek.length = encDesc.cekLen) (hl2 : tok.iv.length = encDesc.ivLen)
    (hl3 : tok.tag.length = encDesc.tagLen)
    (htag : tok.tag ≠ aeadTag cek tok.iv tok.ciphertext (headerBytes tok.header)) :
    decryptJWE key u tok = .error .cryptoFailed := by
  unfold decryptJWE
  rw [heq, henc, hcrit]
  dsimp only
  rw [show checkKeyCompatibility desc key = Except.ok () from by
    unfold checkKeyCompatibility
    rw [hcomp]
    rfl]
  dsimp only
  rw [hcek]
  dsimp only
  rw [if_pos ⟨hl1, hl2, hl3⟩, if_neg htag]

theorem xor_left_rotate (a b c : Nat) : a ^^^ (b ^^^ c) = b ^^^ (a ^^^ c) := by
  rw [← Nat.xor_assoc, Nat.xor_comm a b, Nat.xor_assoc]

theorem xor_insert_pow (a b c d k : Nat) :
    a ^^^ b ^^^ (c ^^^ 2 ^ k) ^^^ d = (a ^^^ b ^^^ c ^^^ d) ^^^ 2 ^ k := by
  simp [Nat.xor_assoc, Nat.xor_comm, xor_left_rotate]

/-- C2: flipping any single bit of a valid JWS token's signature, or of a valid
JWE token's ciphertext, tag or IV, makes verification/decryption fail with
the generic `cryptoFailed` error — the same information-free value in every
case, so the surfaced detail distinguishes none of them — and no
payload/plaintext is returned. -/
theorem single_bit_tamper_rejected :
    (∀ tok key u v i k, compactVerify tok key u = .ok v →
      i < tok.signature.length → k < 8 →
      compactVerify { tok with signature := flipBit tok.signature i k } key u
        = .error .cryptoFailed)
    ∧ (∀ key u tok pt i k, decryptJWE key u tok = .ok pt →
      i < tok.ciphertext.length → k < 8 →
      decryptJWE key u { tok with ciphertext := flipBit tok.ciphertext i k }
        = .error .cryptoFailed)
    ∧ (∀ key u tok pt i k, decryptJWE key u tok = .ok pt →
      i < tok.tag.length → k < 8 →
      decryptJWE key u { tok with tag := flipBit tok.tag i k } = .error .cryptoFailed)
    ∧ (∀ key u tok pt i k, decryptJWE key u tok = .ok pt →
      i < tok.iv.length → k < 8 →
      decryptJWE key u { tok with iv := flipBit tok.iv i k } = .error .cryptoFailed) := by
  refine ⟨?_, ?_, ?_, ?_⟩
  · intro tok key u v i k hok hi _
    obtain ⟨desc, heq, hcrit, hfam, hcomp, hsig, _⟩ := (compactVerify_ok_iff tok key u v).mp hok
    refine compactVerify_cryptoFailed _ key u desc heq hcrit hfam hcomp ?_
    show flipBit tok.signature i k ≠ signPrimitive desc key (signingInput tok.header tok.payload)
    rw [← hsig]
    exact flipBit_ne _ _ _ hi
  · intro key u tok pt i k hok hi _
    obtain ⟨desc, encDesc, cek, heq, henc, hcrit, hcomp, hcek, hl1, hl2, hl3, htag, _⟩ :=
      (decryptJWE_ok_iff key u tok pt).mp hok
    refine decryptJWE_cryptoFailed key u _ desc encDesc cek heq henc hcrit hcomp hcek hl1 hl2
      hl3 ?_
    show tok.tag ≠ aeadTag cek tok.iv (flipBit tok.ciphertext i k) (headerBytes tok.header)
    rw [htag]
    unfold aeadTag
    intro he
    have hxy := (List.replicate_right_inj (by norm_num)).mp he
    rw [xsum_flipBit _ _ _ hi, xor_insert_pow] at hxy
    exact xor_pow_ne_self _ k hxy.symm
  · intro key u tok pt i k hok hi _
    obtain ⟨desc, encDesc, cek, heq, henc, hcrit, hcomp, hcek, hl1, hl2, hl3, htag, _⟩ :=
      (decryptJWE_ok_iff key u tok pt).mp hok
    refine decryptJWE_cryptoFailed key u _ desc encDesc cek heq henc hcrit hcomp hcek hl1 hl2
      ?_ ?_
    · show (flipBit tok.tag i k).length = encDesc.tagLen
      rw [flipBit_length]
      exact hl3
    · show flipBit tok.tag i k ≠ aeadTag cek tok.iv tok.ciphertext (headerBytes tok.header)
      rw [← htag]
      exact flipBit_ne _ _ _ hi
  · intro key u tok pt i k hok hi _
    obtain ⟨desc, encDesc, cek, heq, henc, hcrit, hcomp, hcek, hl1, hl2, hl3, htag, _⟩ :=
      (decryptJWE_ok_iff key u tok pt).mp hok
    refine decryptJWE_cryptoFailed key u _ desc encDesc cek heq henc hcrit hcomp hcek hl1
      ?_ hl3 ?_
    · show (flipBit tok.iv i k).length = encDesc.ivLen
      rw [flipBit_length]
      exact hl2
    · show tok.tag ≠ aeadTag cek (flipBit tok.iv i k) tok.ciphertext (headerBytes tok.header)
      rw [htag]
      unfold aeadTag
      intro he
      have hxy := (List.replicate_right_inj (by norm_num)).mp he
      rw [xsum_flipBit _ _ _ hi] at hxy
      rw [show ∀ a b c d : Nat, a ^^^ (b ^^^ 2 ^ k) ^^^ c ^^^ d
            = (a ^^^ b ^^^ c ^^^ d) ^^^ 2 ^ k from by
        intro a b c d
        simp [Nat.xor_assoc, Nat.xor_comm, xor_left_rotate]] at hxy
      exact xor_pow_ne_self _ k hxy.symm

/-- Witness for C2 on concrete valid JWS and JWE tokens. -/
theorem single_bit_tamper_rejected_witness :
    compactVerify tokT keyT [] = .ok ⟨hT, [10, 20]⟩
    ∧ compactVerify { tokT with signature := flipBit tokT.signature 0 0 } keyT []
        = .error .cryptoFailed
    ∧ decryptJWE keyTE [] tokTE = .ok [42]
    ∧ decryptJWE keyTE [] { tokTE with ciphertext := flipBit tokTE.ciphertext 0 1 }
        = .error .cryptoFailed
    ∧ decryptJWE keyTE [] { tokTE with tag := flipBit tokTE.tag 2 3 } = .error .cryptoFailed
    ∧ decryptJWE keyTE [] { tokTE with iv := flipBit tokTE.iv 1 4 } = .error .cryptoFailed :=
  ⟨by decide,
   single_bit_tamper_rejected.1 tokT keyT [] ⟨hT, [10, 20]⟩ 0 0 (by decide) (by decide)
     (by decide),
   by decide,
   single_bit_tamper_rejected.2.1 keyTE [] tokTE [42] 0 1 (by decide) (by decide) (by decide),
   single_bit_tamper_rejected.2.2.1 keyTE [] tokTE [42] 2 3 (by decide) (by decide) (by decide),
   single_bit_tamper_rejected.2.2.2 keyTE [] tokTE [42] 1 4 (by decide) (by decide) (by decide)⟩

theorem keyCompatible_of_check {d : AlgDescriptor} {k : JoseKey} {u : Unit}
    (h : checkKeyCompatibility d k = .ok u) : keyCompatible d k = true := by
  unfold checkKeyCompatibility at h
  split at h
  · assumption
  · exact absurd h (by simp)

theorem decryptContent_encryptContent (cek iv p : List Nat) :
    decryptContent cek iv (encryptContent cek iv p) = p := by
  unfold decryptContent encryptContent
  rw [List.map_map]
  simp [Function.comp_def, Nat.xor_assoc, Nat.xor_self]

theorem unwrapKey_wrapKey (kek cek : List Nat) : unwrapKey kek (wrapKey kek cek) = cek := by
  unfold unwrapKey wrapKey
  rw [List.map_map]
  simp [Function.comp_def, Nat.xor_assoc, Nat.xor_self]

theorem resolveEnc_tagLen {o : Option String} {e : EncDescriptor}
    (h : resolveEnc o = .ok e) : e.tagLen = 16 := by
  unfold resolveEnc at h
  match o with
  | none => exact absurd h (by simp)
  | some s =>
      dsimp only at h
      split at h
      next d hfind =>
        have hmem := List.mem_of_find?_eq_some hfind
        injection h with h1
        subst h1
        simp [encRegistry] at hmem
        rcases hmem with h | h | h <;> rw [h]
      · exact absurd h (by simp)

/-- C5: for every registered algorithm, header, payload and compatible key
material, verify after sign returns the original payload, and decrypt after
encrypt returns the original payload. -/
theorem sign_encrypt_roundtrip :
    (∀ h key u p tok, signJWS h key u p = .ok tok → compactVerify tok key u = .ok ⟨h, p⟩)
    ∧ (∀ h key u cek iv p tok, encryptJWE h key u cek iv p = .ok tok →
        decryptJWE key u tok = .ok p) := by
  constructor
  · intro h key u p tok hs
    unfold signJWS at hs
    split at hs
    · exact absurd hs (by simp)
    next desc heq =>
      split at hs
      · exact absurd hs (by simp)
      next u1 hcrit =>
        split at hs
        next hfam =>
          split at hs
          · exact absurd hs (by simp)
          next u2 hcomp =>
            injection hs with h1
            subst h1
            refine (compactVerify_ok_iff _ key u _).mpr
              ⟨desc, heq, ?_, beq_iff_eq.mp hfam, keyCompatible_of_check hcomp, rfl, rfl⟩
            cases u1
            exact hcrit
        next hfam => exact absurd hs (by simp)
  · intro h key u cek iv p tok hs
    unfold encryptJWE at hs
    split at hs
    · exact absurd hs (by simp)
    next desc heq =>
      split at hs
      · exact absurd hs (by simp)
      next encDesc henc =>
        split at hs
        · exact absurd hs (by simp)
        next u1 hcrit =>
          split at hs
          · exact absurd hs (by simp)
          next u2 hcomp =>
            have hcrit' : validateCrit u h = .ok () := by
              cases u1
              exact hcrit
            split at hs
            · exact absurd hs (by simp)
            · next hfam =>
                split at hs
                next hlen =>
                  injection hs with h1
                  subst h1
                  refine (decryptJWE_ok_iff key u _ p).mpr
                    ⟨desc, encDesc, key.material, heq, henc, hcrit',
                     keyCompatible_of_check hcomp, ?_, hlen.1, hlen.2, ?_, rfl,
                     (decryptContent_encryptContent _ _ _).symm⟩
                  · rw [hfam]
                    rfl
                  · show (aeadTag key.material iv _ _).length = encDesc.tagLen
                    rw [resolveEnc_tagLen henc]
                    simp [aeadTag]
                next hlen => exact absurd hs (by simp)
            · next hfam =>
                split at hs
                next hlen =>
                  injection hs with h1
                  subst h1
                  refine (decryptJWE_ok_iff key u _ p).mpr
                    ⟨desc, encDesc, cek, heq, henc, hcrit',
                     keyCompatible_of_check hcomp, ?_, hlen.1, hlen.2, ?_, rfl,
                     (decryptContent_encryptContent _ _ _).symm⟩
                  · rw [hfam]
                    show establishCek .keyWrap key (wrapKey key.material cek) = .ok cek
                    unfold establishCek
                    rw [unwrapKey_wrapKey]
                  · show (aeadTag cek iv _ _).length = encDesc.tagLen
                    rw [resolveEnc_tagLen henc]
                    simp [aeadTag]
                next hlen => exact absurd hs (by simp)

/-- Witness for C5: HS256 sign/verify and dir+A128GCM encrypt/decrypt. -/
theorem sign_encrypt_roundtrip_witness :
    signJWS hR1 keyR1 [] [3, 1, 4] = .ok tokR1
    ∧ compactVerify tokR1 keyR1 [] = .ok ⟨hR1, [3, 1, 4]⟩
    ∧ encryptJWE hR2 keyR2 [] [] (List.replicate 12 1) [9, 9] = .ok tokR2
    ∧ decryptJWE keyR2 [] tokR2 = .ok [9, 9] :=
  ⟨by decide,
   sign_encrypt_roundtrip.1 hR1 keyR1 [] [3, 1, 4] tokR1 (by decide),
   by decide,
   sign_encrypt_roundtrip.2 hR2 keyR2 [] [] (List.replicate 12 1) [9, 9] tokR2 (by decide)⟩

/-- C6: for every well-formed key, `fromJWK (toJWK key)` yields a key that is
operationally equivalent to `key`: it produces identical signatures and
identical decryption results. -/
theorem jwk_roundtrip (key : JoseKey) (hwf : wellFormedKey key = true) :
    ∃ j key', toJWK key = .ok j ∧ fromJWK j = .ok key'
      ∧ (∀ d data, signPrimitive d key' data = signPrimitive d key data)
      ∧ (∀ u tok, decryptJWE key' u tok = decryptJWE key u tok) := by
  obtain ⟨kty, priv, crv, mat⟩ := key
  have hrt : ∃ j, toJWK ⟨kty, priv, crv, mat⟩ = .ok j
      ∧ fromJWK j = .ok ⟨kty, priv, crv, mat⟩ := by
    cases kty with
    | oct =>
        have hpc : priv = false ∧ crv = none := by
          simpa [wellFormedKey] using hwf
        obtain ⟨hp, hc⟩ := hpc
        subst hp
        subst hc
        exact ⟨_, rfl, by simp [toJWK, fromJWK]⟩
    | rsa =>
        have hc : crv = none := by simpa [wellFormedKey] using hwf
        subst hc
        cases priv with
        | true => exact ⟨_, rfl, by simp [toJWK, fromJWK]⟩
        | false => exact ⟨_, rfl, by simp [toJWK, fromJWK]⟩
    | ec =>
        cases crv with
        | none => simp [wellFormedKey] at hwf
        | some c =>
            cases hlen : ecCurveLen c with
            | none => simp [wellFormedKey, hlen] at hwf
            | some len =>
                have hm : mat.length = len := by simpa [wellFormedKey, hlen] using hwf
                cases priv with
                | true =>
                    exact ⟨_, rfl, by simp [toJWK, fromJWK, hlen, ecPointX, ecPointY, hm]⟩
                | false =>
                    exact ⟨_, rfl, by simp [toJWK, fromJWK, hlen, ecPointY, hm]⟩
    | okp =>
        cases crv with
        | none => simp [wellFormedKey] at hwf
        | some c =>
            cases hlen : okpCurveLen c with
            | none => simp [wellFormedKey, hlen] at hwf
            | some len =>
                have hm : mat.length = len := by simpa [wellFormedKey, hlen] using hwf
                cases priv with
                | true =>
                    exact ⟨_, rfl, by simp [toJWK, fromJWK, hlen, okpPoint, hm]⟩
                | false =>
                    exact ⟨_, rfl, by simp [toJWK, fromJWK, hlen, hm]⟩
  obtain ⟨j, h1, h2⟩ := hrt
  exact ⟨j, _, h1, h2, fun _ _ => rfl, fun _ _ => rfl⟩

/-- Witness for C6 at a concrete P-256 private key. -/
theorem jwk_roundtrip_witness :
    ∃ j key', toJWK keyJ = .ok j ∧ fromJWK j = .ok key'
      ∧ (∀ d data, signPrimitive d key' data = signPrimitive d keyJ data)
      ∧ (∀ u tok, decryptJWE key' u tok = decryptJWE keyJ u tok) :=
  jwk_roundtrip keyJ (by decide)

theorem mapM_congr_option {α β : Type} (f g : α → Option β) (l : List α)
    (h : ∀ a ∈ l, f a = g a) : l.mapM f = l.mapM g := by
  induction l with
  | nil => rfl
  | cons a t ih =>
      simp only [List.mapM_cons]
      rw [h a (by simp), ih (fun b hb => h b (by simp [hb]))]

/-- C8: the JWK thumbprint is a function of only the RFC-mandated minimal
member set for the key's kty: two JWK member lists that agree on those
members — regardless of member order or extra private/optional members —
yield the same base64url digest. -/
theorem thumbprint_canonical (j1 j2 : List (String × String)) (kty : String)
    (mems : List String)
    (h1 : j1.lookup "kty" = some kty) (h2 : j2.lookup "kty" = some kty)
    (hreq : requiredMembers kty = some mems)
    (hagree : ∀ m ∈ mems, j1.lookup m = j2.lookup m) :
    thumbprint j1 = thumbprint j2 := by
  unfold thumbprint canonicalJWK
  rw [h1, h2]
  dsimp only
  rw [hreq]
  dsimp only
  rw [mapM_congr_option (canonicalMember j1) (canonicalMember j2) mems
    (fun m hm => by unfold canonicalMember; rw [hagree m hm])]

/-- Witness for C8: reordered members and an extra private member. -/
theorem thumbprint_canonical_witness :
    thumbprint [("kty", "EC"), ("crv", "P-256"), ("x", "AQAB"), ("y", "Z9"), ("d", "priv")]
      = thumbprint [("y", "Z9"), ("x", "AQAB"), ("kty", "EC"), ("use", "sig"),
          ("crv", "P-256")] :=
  thumbprint_canonical _ _ "EC" ["crv", "kty", "x", "y"] (by decide) (by decide) rfl
    (by decide)

theorem chunksOf64_ne_nil (l : List Char) : chunksOf64 l ≠ [] := by
  rw [chunksOf64]
  split <;> simp

theorem join_chunksOf64 (l : List Char) : (chunksOf64 l).flatten = l := by
  induction l using chunksOf64.induct with
  | case1 l h => rw [chunksOf64, dif_pos h]; simp
  | case2 l h ih =>
      rw [chunksOf64, dif_neg h]
      simp only [List.flatten_cons, ih]
      exact List.take_append_drop 64 l

theorem chunksOf64_le (l : List Char) : ∀ c ∈ chunksOf64 l, c.length ≤ 64 := by
  induction l using chunksOf64.induct with
  | case1 l h =>
      rw [chunksOf64, dif_pos h]
      intro c hc
      simp at hc
      rw [hc]
      exact h
  | case2 l h ih =>
      rw [chunksOf64, dif_neg h]
      intro c hc
      rcases List.mem_cons.mp hc with hc | hc
      · rw [hc]
        simp
      · exact ih c hc

theorem chunksOf64_full (l : List Char) :
    ∀ i, i + 1 < (chunksOf64 l).length → ((chunksOf64 l).getD i []).length = 64 := by
  induction l using chunksOf64.induct with
  | case1 l h =>
      rw [chunksOf64, dif_pos h]
      intro i hi
      simp at hi
  | case2 l h ih =>
      rw [chunksOf64, dif_neg h]
      intro i hi
      cases i with
      | zero =>
          show (l.take 64).length = 64
          rw [List.length_take]
          omega
      | succ i2 =>
          show ((chunksOf64 (l.drop 64)).getD i2 []).length = 64
          exact ih i2 (by simpa using hi)

theorem joinLines_cons (a : List Char) (ls : List (List Char)) (h : ls ≠ []) :
    joinLines (a :: ls) = a ++ '\n' :: joinLines ls := by
  cases ls with
  | nil => exact absurd rfl h
  | cons x t => rfl

theorem joinLines_append_single (ls : List (List Char)) (b : List Char) (h : ls ≠ []) :
    joinLines (ls ++ [b]) = joinLines ls ++ '\n' :: b := by
  induction ls with
  | nil => exact absurd rfl h
  | cons x t ih =>
      cases t with
      | nil => rfl
      | cons y s =>
          rw [List.cons_append, joinLines_cons x ((y :: s) ++ [b]) (by simp),
            joinLines_cons x (y :: s) (by simp), ih (by simp)]
          simp

theorem b64Char_mem (n : Nat) : b64Char n ∈ base64Chars := by
  unfold b64Char
  have hlen : base64Chars.length = 64 := by decide
  have h : n % 64 < base64Chars.length := by
    rw [hlen]
    exact Nat.mod_lt n (by norm_num)
  rw [List.getD_eq_getElem base64Chars 'A' h]
  exact List.getElem_mem h

theorem base64Encode_chars (bs : List Nat) : ∀ c ∈ base64Encode bs, isB64Char c := by
  induction bs using base64Encode.induct with
  | case1 =>
      intro c hc
      simp [base64Encode] at hc
  | case2 a =>
      intro c hc
      simp only [base64Encode, List.mem_cons, List.not_mem_nil, or_false] at hc
      rcases hc with h | h | h | h <;> subst h
      · exact Or.inl (b64Char_mem _)
      · exact Or.inl (b64Char_mem _)
      · exact Or.inr rfl
      · exact Or.inr rfl
  | case3 a b =>
      intro c hc
      simp only [base64Encode, List.mem_cons, List.not_mem_nil, or_false] at hc
      rcases hc with h | h | h | h <;> subst h
      · exact Or.inl (b64Char_mem _)
      · exact Or.inl (b64Char_mem _)
      · exact Or.inl (b64Char_mem _)
      · exact Or.inr rfl
  | case4 a b c2 rest ih =>
      intro c hc
      simp only [base64Encode, List.mem_cons] at hc
      rcases hc with h | h | h | h | h
      · exact h ▸ Or.inl (b64Char_mem _)
      · exact h ▸ Or.inl (b64Char_mem _)
      · exact h ▸ Or.inl (b64Char_mem _)
      · exact h ▸ Or.inl (b64Char_mem _)
      · exact ih c h

theorem pemRender_eq (label : String) (b : List Char) :
    pemRender label b
      = pemBegin label ++ '\n' :: (joinLines (chunksOf64 b) ++ '\n' :: pemEnd label) := by
  unfold pemRender
  rw [joinLines_cons _ _ (by simp), joinLines_append_single _ _ (chunksOf64_ne_nil b)]

/-- C9: `exportSPKI` returns a BEGIN PUBLIC KEY line, a base64 body wrapped at
64 characters, and a matching END PUBLIC KEY line; `exportPKCS8` returns the
analogous PRIVATE KEY structure. -/
theorem pem_export_format (key : JoseKey) :
    (∃ body, exportSPKI key
        = pemBegin "PUBLIC KEY" ++ '\n' :: (joinLines body ++ '\n' :: pemEnd "PUBLIC KEY")
      ∧ body.flatten = base64Encode (spkiDER key)
      ∧ wrapped64 body
      ∧ ∀ c ∈ body.flatten, isB64Char c)
    ∧ (∃ body, exportPKCS8 key
        = pemBegin "PRIVATE KEY" ++ '\n' :: (joinLines body ++ '\n' :: pemEnd "PRIVATE KEY")
      ∧ body.flatten = base64Encode (pkcs8DER key)
      ∧ wrapped64 body
      ∧ ∀ c ∈ body.flatten, isB64Char c) := by
  constructor
  · refine ⟨chunksOf64 (base64Encode (spkiDER key)), ?_, ?_, ?_, ?_⟩
    · exact pemRender_eq "PUBLIC KEY" (base64Encode (spkiDER key))
    · exact join_chunksOf64 _
    · exact ⟨chunksOf64_le _, chunksOf64_full _⟩
    · rw [join_chunksOf64]
      exact base64Encode_chars _
  · refine ⟨chunksOf64 (base64Encode (pkcs8DER key)), ?_, ?_, ?_, ?_⟩
    · exact pemRender_eq "PRIVATE KEY" (base64Encode (pkcs8DER key))
    · exact join_chunksOf64 _
    · exact ⟨chunksOf64_le _, chunksOf64_full _⟩
    · rw [join_chunksOf64]
      exact base64Encode_chars _
